import Mathlib

/-!
Verification development for the SnapURL click ingestion and analytics
pipeline.  The definitions below are a shallow embedding of the JavaScript
source: the Click model statics and pre-save hooks (`models/Click.js`) and
the `AnalyticsService` methods (`services/analyticsService.js`).  Strings
are modelled by Lean `String` (with helper operations defined over the
underlying character list so that everything is kernel-computable),
timestamps by `Nat` milliseconds since the epoch, and the Mongo document
collections by Lean lists.
-/

/-! ## Character-list string helpers (models of the JS string operations used) -/

/-- Model of JS `String.prototype.startsWith`: the first characters of a
string coincide with the candidate leading string. -/
def strStarts (s p : String) : Bool :=
  s.data.take p.data.length == p.data

/-- Model of JS `String.prototype.substring(n)` on ASCII data. -/
def strDrop (s : String) (n : Nat) : String :=
  String.mk (s.data.drop n)

/-- Model of JS `String.prototype.trim`: strip whitespace from both ends. -/
def strTrim (s : String) : String :=
  String.mk (((s.data.dropWhile Char.isWhitespace).reverse.dropWhile Char.isWhitespace).reverse)

/-- Split a character list at every occurrence of the separator character,
as JS `String.prototype.split(sep)` does (empty pieces are kept). -/
def splitOnChar (sep : Char) : List Char → List (List Char)
  | [] => [[]]
  | c :: rest =>
    if c = sep then [] :: splitOnChar sep rest
    else
      match splitOnChar sep rest with
      | [] => [[c]]
      | p :: ps => (c :: p) :: ps

/-- Model of JS `s.split(sep)` at the `String` level. -/
def strSplit (s : String) (sep : Char) : List String :=
  (splitOnChar sep s.data).map String.mk

/-- Case-insensitive folding of a string, as the JS `i` regex flag does on
the ASCII patterns used by the source. -/
def lowerChars (s : String) : List Char :=
  s.data.map Char.toLower

/-- Whether `sub` occurs as a contiguous run inside `l` (the JS unanchored
regex substring test). -/
def hasSub (sub : List Char) : List Char → Bool
  | [] => sub.isEmpty
  | c :: t => ((c :: t).take sub.length == sub) || hasSub sub t

/-! ## IP validation and normalization (`analyticsService._normalizeIpAddress`) -/

/-- Numeric value of a digit string, as JS `parseInt(part, 10)` computes on
an all-digit string. -/
def digitsVal (l : List Char) : Nat :=
  l.foldl (fun n c => n * 10 + (c.toNat - 48)) 0

/-- One dotted-quad component: the source requires (via the regex
`(\d{1,3}\.){3}\d{1,3}` plus the `parseInt` range check) one to three
digits with value at most 255. -/
def octetOk (p : List Char) : Bool :=
  decide (1 ≤ p.length) && decide (p.length ≤ 3) &&
    p.all (fun c => c.isDigit) && decide (digitsVal p ≤ 255)

/-- Model of `isValidIPv4` from `_normalizeIpAddress`: four dot-separated octets,
each of one to three digits and numerically at most 255. -/
def isValidIPv4 (s : String) : Bool :=
  let parts := splitOnChar '.' s.data
  decide (parts.length = 4) && parts.all octetOk

/-- The sixteen leading strings matched by the source's private-range regex
`^172\.(1[6-9]|2[0-9]|3[0-1])\.` (the 172.16.0.0/12 block). -/
def private172List : List String :=
  ["172.16.", "172.17.", "172.18.", "172.19.", "172.20.", "172.21.",
   "172.22.", "172.23.", "172.24.", "172.25.", "172.26.", "172.27.",
   "172.28.", "172.29.", "172.30.", "172.31."]

/-- The reserved-range tests of `_isPublicIP` (RFC1918 plus loopback,
link-local, multicast and the zero net). -/
def privateRangeHit (s : String) : Bool :=
  strStarts s "10." || private172List.any (fun p => strStarts s p) ||
  strStarts s "192.168." || strStarts s "127." || strStarts s "169.254." ||
  strStarts s "224." || strStarts s "0."

/-- Model of `_isPublicIP`: a falsy (empty) input is not public; otherwise public
means no reserved range matches. -/
def isPublicIP (ip : String) : Bool :=
  if ip == "" then false else !(privateRangeHit ip)

/-- The proxy-forwarded headers `_normalizeIpAddress` consults; `none`
models an absent header. -/
structure Headers where
  cfConnectingIp : Option String := none
  xRealIp : Option String := none
  xForwardedFor : Option String := none
  xClientIp : Option String := none
  xForwarded : Option String := none
  forwardedFor : Option String := none
  forwarded : Option String := none

/-- Model of `extractFromForwardedFor`: split the chain on commas, trim, prefer the
first public entry, otherwise fall back to the chain's first entry (JS
`ips[0] || null` yields no candidate for an empty first entry). -/
def extractFromForwardedFor (fwd : Option String) : Option String :=
  match fwd with
  | none => none
  | some s =>
    if s == "" then none
    else
      let ips := (strSplit s ',').map strTrim
      match ips.find? (fun c => isPublicIP c) with
      | some c => some c
      | none =>
        match ips with
        | [] => none
        | h :: _ => if h == "" then none else some h

/-- The ordered candidate list of `_normalizeIpAddress` (direct IP first,
then the headers in decreasing trust order), with JS `filter(Boolean)`
dropping both absent and empty entries. -/
def ipSources (ip : Option String) (h : Headers) : List String :=
  (([ip, h.cfConnectingIp, h.xRealIp, extractFromForwardedFor h.xForwardedFor,
     h.xClientIp, h.xForwarded, h.forwardedFor, h.forwarded].filterMap id).filter
    (fun c => !(c == "")))

/-- Per-candidate normalization: strip an IPv4-mapped-IPv6 marker, then map
the IPv6 loopback and the literal localhost to the IPv4 loopback. -/
def normCandidate (c : String) : String :=
  let c1 := if strStarts c "::ffff:" then strDrop c 7 else c
  let c2 := if c1 == "::1" then "127.0.0.1" else c1
  if c2 == "localhost" then "127.0.0.1" else c2

/-- The candidate loop of `_normalizeIpAddress`: first normalized candidate
that validates wins; the development fallback is the IPv4 loopback. -/
def pickFirstValid : List String → String
  | [] => "127.0.0.1"
  | c :: rest =>
    if isValidIPv4 (normCandidate c) then normCandidate c else pickFirstValid rest

/-- Model of `_normalizeIpAddress`: normalize the best available IP candidate,
always producing a syntactically valid IPv4 string. -/
def normalizeIpAddress (ip : Option String) (h : Headers) : String :=
  pickFirstValid (ipSources ip h)

/-! ## Bot detection (`Click.detectBot` and the bot pre-save hook) -/

/-- The fixed pattern list of `detectBot`. -/
def botPatterns : List String :=
  ["bot", "crawl", "spider", "scrape", "google", "bing", "yahoo", "baidu",
   "facebook", "twitter", "linkedin", "curl", "wget", "postman"]

/-- One case-insensitive unanchored pattern test (a JS `/pat/i.test(ua)`). -/
def matchesCI (ua pat : String) : Bool :=
  hasSub (lowerChars pat) (lowerChars ua)

/-- Model of `detectBot`: any of the fixed patterns matching marks the event a bot. -/
def detectBot (ua : String) : Bool :=
  botPatterns.any (fun p => matchesCI ua p)

/-- The bot pre-save hook: on a new document with a truthy user-agent the
`isBot` flag is recomputed by `detectBot`; otherwise the current value
(schema default `false`) is kept. -/
def botHook (isNew : Bool) (ua : Option String) (cur : Bool) : Bool :=
  match ua with
  | some u => if isNew && !(u == "") then detectBot u else cur
  | none => cur

/-! ## Geolocation (the geolocation pre-save hook of `Click`) -/

/-- The location subdocument of a click (all fields optional). -/
structure LocRec where
  country : Option String := none
  countryName : Option String := none
  region : Option String := none
  city : Option String := none
  timezone : Option String := none
  deriving DecidableEq, Repr

/-- The fixed placeholder the hook stores for local/private addresses. -/
def localPlaceholder : LocRec :=
  { country := some "XX", countryName := some "Local/Private",
    city := some "Local", region := some "Local" }

/-- The local/private short-circuit test of the geolocation hook: the two
loopback literals or a `192.168.` / `10.` / `172.` leading string. -/
def geoLocalIp (ip : String) : Bool :=
  ip == "127.0.0.1" || ip == "::1" || strStarts ip "192.168." ||
  strStarts ip "10." || strStarts ip "172."

/-- The geolocation pre-save hook.  `lookup` abstracts the external
`geoip.lookup` call; the second component records whether that external
lookup was performed. -/
def geoHook (enableGeo : Bool) (lookup : String → Option LocRec)
    (isNew : Bool) (ip : String) (cur : Option LocRec) : Option LocRec × Bool :=
  if isNew && enableGeo && !(ip == "") then
    if geoLocalIp ip then (some localPlaceholder, false)
    else
      match lookup ip with
      | some g => (some g, true)
      | none => (cur, true)
  else (cur, false)

/-! ## Data model -/

/-- A persisted click event (the `Click` document fields the analytics
pipeline reads; `deviceType` carries the schema default `"unknown"`). -/
structure ClickEvent where
  urlId : Nat
  userId : Option Nat
  ipAddress : String
  userAgent : Option String
  referrer : Option String
  sessionId : Option String
  clickedAt : Nat
  loadTime : Option Nat
  isBot : Bool
  isUnique : Bool
  location : Option LocRec
  deviceType : String
  browser : Option String
  deriving DecidableEq, Repr

/-- The external URL resource with its running counters. -/
structure UrlDoc where
  id : Nat
  isActive : Bool
  isExpired : Bool
  originalUrl : String
  userId : Option Nat
  clickCount : Nat
  uniqueClicks : Nat
  lastClickedAt : Option Nat
  deriving DecidableEq, Repr

/-- The user/account statistics sink (`User.totalClicks`). -/
structure UserDoc where
  id : Nat
  totalClicks : Nat
  deriving DecidableEq, Repr

/-- The persistent collections the ingestion pipeline touches. -/
structure SysState where
  clicks : List ClickEvent
  urls : List UrlDoc
  users : List UserDoc
  deriving DecidableEq, Repr

/-- Error raised by the abstract store (the `catch` branch of
`isUniqueClick`). -/
inductive DbError
  | failure
  deriving DecidableEq, Repr

/-- The failure taxonomy of `recordClick` visible to its caller. -/
inductive RecordError
  | notFound (msg : String)
  | storage (msg : String)
  deriving DecidableEq, Repr

/-- Fault-injection flags for the store operations `recordClick` performs;
each flag makes the corresponding operation throw. -/
structure Faults where
  lookupFails : Bool := false
  saveFails : Bool := false
  statsFails : Bool := false
  userStatsFails : Bool := false
  deriving DecidableEq, Repr

/-- All store operations succeed. -/
def noFaults : Faults := {}

/-- Ambient configuration of one ingestion: the geolocation switch, the
external `geoip.lookup` resolver and the current instant. -/
structure Env where
  enableGeo : Bool
  geoLookup : String → Option LocRec
  now : Nat

/-- The request data handed to `recordClick`. -/
structure ClickInput where
  urlId : Nat
  ipAddress : Option String := none
  headers : Headers := {}
  userAgent : Option String := none
  referrer : Option String := none
  userId : Option Nat := none
  sessionId : Option String := none
  deviceType : Option String := none
  browser : Option String := none

/-- The value `recordClick` returns to the redirect handler. -/
structure RecordResult where
  isUnique : Bool
  redirectUrl : String
  totalClicks : Nat
  uniqueClicks : Nat
  deriving DecidableEq, Repr

/-! ## Uniqueness determination (`Click.isUniqueClick`) -/

/-- The `findOne` predicate on the (url id, normalized IP) pair. -/
def clickMatches (u : Nat) (a : String) (c : ClickEvent) : Bool :=
  c.urlId == u && c.ipAddress == a

/-- Model of the source's findOne lookup on the pair over the event store. -/
def findOneByUrlIp (store : List ClickEvent) (u : Nat) (a : String) : Option ClickEvent :=
  store.find? (clickMatches u a)

/-- Model of `Click.isUniqueClick`: unique exactly when the lookup succeeds and
finds no prior event; a lookup error is absorbed and defaults the answer
to non-unique. -/
def isUniqueClick (lookupResult : Except DbError (Option ClickEvent)) : Bool :=
  match lookupResult with
  | Except.error _ => false
  | Except.ok existing => existing.isNone

/-! ## Ingestion pipeline (`analyticsService.recordClick`) -/

/-- Model of the findById lookup over the URL collection. -/
def findUrl (urls : List UrlDoc) (id : Nat) : Option UrlDoc :=
  urls.find? (fun u => u.id == id)

/-- The URL resolution step of `recordClick`: absent or inactive URLs and
expired URLs terminate ingestion with the source's two messages. -/
def resolveUrl (urls : List UrlDoc) (id : Nat) : Except RecordError UrlDoc :=
  match findUrl urls id with
  | none => Except.error (RecordError.notFound "URL not found or inactive")
  | some url =>
    if url.isActive = false then
      Except.error (RecordError.notFound "URL not found or inactive")
    else if url.isExpired = true then
      Except.error (RecordError.notFound "URL has expired")
    else Except.ok url

/-- Construction of the click document, with the two pre-save hooks
(geolocation and bot detection) applied as `click.save()` runs them. -/
def buildClick (env : Env) (inp : ClickInput) (ip : String) (isU : Bool) : ClickEvent :=
  { urlId := inp.urlId, userId := inp.userId, ipAddress := ip,
    userAgent := inp.userAgent, referrer := inp.referrer,
    sessionId := inp.sessionId, clickedAt := env.now, loadTime := none,
    isUnique := isU,
    isBot := botHook true inp.userAgent false,
    location := (geoHook env.enableGeo env.geoLookup true ip none).1,
    deviceType := inp.deviceType.getD "unknown",
    browser := inp.browser }

/-- The single counter mutation of `_updateUrlStats`: total plus one,
unique plus one exactly when the click was unique, last-clicked set. -/
def applyUrlStats (u : UrlDoc) (isU : Bool) (now : Nat) : UrlDoc :=
  { u with clickCount := u.clickCount + 1,
           uniqueClicks := u.uniqueClicks + (if isU then 1 else 0),
           lastClickedAt := some now }

/-- Model of the findByIdAndUpdate call issued by `_updateUrlStats`. -/
def updateUrlStats (urls : List UrlDoc) (id : Nat) (isU : Bool) (now : Nat) : List UrlDoc :=
  urls.map (fun u => if u.id == id then applyUrlStats u isU now else u)

/-- Model of `_updateUserStats`: add the click to the owning account's counter. -/
def updateUserStats (users : List UserDoc) (uid : Nat) (n : Nat) : List UserDoc :=
  users.map (fun u => if u.id == uid then { u with totalClicks := u.totalClicks + n } else u)

/-- Model of `analyticsService.recordClick`.  The pair returned is the caller-visible
outcome and the post-call store state; every thrown error leaves the state
unchanged.  The `_updateUrlStats` and `_updateUserStats` failures are
swallowed inside those helpers (their `catch` only logs), so the
corresponding fault flags skip the mutation without raising. -/
def recordClick (env : Env) (f : Faults) (s : SysState) (inp : ClickInput) :
    Except RecordError RecordResult × SysState :=
  let ip := normalizeIpAddress inp.ipAddress inp.headers
  match resolveUrl s.urls inp.urlId with
  | Except.error e => (Except.error e, s)
  | Except.ok url =>
    let lookupRes : Except DbError (Option ClickEvent) :=
      if f.lookupFails = true then Except.error DbError.failure
      else Except.ok (findOneByUrlIp s.clicks inp.urlId ip)
    let isU := isUniqueClick lookupRes
    let click := buildClick env inp ip isU
    if f.saveFails = true then (Except.error (RecordError.storage "click save failed"), s)
    else
      let afterSave : SysState := { s with clicks := s.clicks ++ [click] }
      let afterStats : SysState :=
        if f.statsFails = true then afterSave
        else { afterSave with urls := updateUrlStats afterSave.urls url.id isU env.now }
      let afterUser : SysState :=
        match url.userId with
        | none => afterStats
        | some uid =>
          if f.userStatsFails = true then afterStats
          else { afterStats with users := updateUserStats afterStats.users uid 1 }
      (Except.ok { isUnique := isU, redirectUrl := url.originalUrl,
                   totalClicks := url.clickCount + 1,
                   uniqueClicks := url.uniqueClicks + (if isU then 1 else 0) },
       afterUser)

/-- A sequence of ingestions run one after another (no concurrency), all
store operations succeeding. -/
def runTrace (steps : List (Env × ClickInput)) (s : SysState) : SysState :=
  match steps with
  | [] => s
  | (env, inp) :: rest => runTrace rest (recordClick env noFaults s inp).snd

/-! ## Aggregation engine (`Click.getUrlAnalytics`, `Click.getRealTimeStats`) -/

/-- Query options of `getUrlAnalytics`; absent dates take the source's
defaults (30 days before now, and now), `excludeBots` defaults to true. -/
structure AnalyticsOptions where
  startDate : Option Nat := none
  endDate : Option Nat := none
  excludeBots : Bool := true
  deriving DecidableEq, Repr

/-- The `$match` stage of `getUrlAnalytics`: same URL, clicked inside the
inclusive date range, and (when bots are excluded) `isBot` not true. -/
def analyticsMatch (urlId startD endD : Nat) (excludeBots : Bool) (c : ClickEvent) : Bool :=
  c.urlId == urlId && decide (startD ≤ c.clickedAt) && decide (c.clickedAt ≤ endD) &&
    (!excludeBots || !c.isBot)

/-- Distinct values in first-seen order (a Mongo `$addToSet` / `$group`
key set). -/
def groupKeys {α : Type} [BEq α] (keys : List α) : List α :=
  keys.foldl (fun acc k => if acc.any (fun x => x == k) then acc else acc ++ [k]) []

/-- Group keys with their occurrence counts, in first-seen order. -/
def tally {α : Type} [BEq α] (keys : List α) : List (α × Nat) :=
  (groupKeys keys).map (fun k => (k, (keys.filter (fun x => x == k)).length))

/-- Stable insertion into a list sorted by descending key. -/
def insertDescBy {α : Type} (key : α → Nat) (x : α) : List α → List α
  | [] => [x]
  | y :: ys => if key y < key x then x :: y :: ys else y :: insertDescBy key x ys

/-- Stable sort by descending key (a Mongo `$sort: {count: -1}`). -/
def sortDescBy {α : Type} (key : α → Nat) : List α → List α
  | [] => []
  | x :: xs => insertDescBy key x (sortDescBy key xs)

/-- Stable insertion into a list sorted by ascending key. -/
def insertAscBy {α : Type} (key : α → Nat) (x : α) : List α → List α
  | [] => [x]
  | y :: ys => if key x < key y then x :: y :: ys else y :: insertAscBy key x ys

/-- Stable sort by ascending key (a Mongo `$sort: {_id: 1}`). -/
def sortAscBy {α : Type} (key : α → Nat) : List α → List α
  | [] => []
  | x :: xs => insertAscBy key x (sortAscBy key xs)

/-- The `location.country` value of an event, when the path is set. -/
def countryOf (c : ClickEvent) : Option String :=
  c.location.bind (fun l => l.country)

/-- The overview facet group of `getUrlAnalytics`. -/
structure Overview where
  totalClicks : Nat
  uniqueClicks : Nat
  botClicks : Nat
  averageLoadTime : Option Rat
  deriving DecidableEq, Repr

/-- Mongo `$avg` over the recorded load times: `none` models the null that
`$avg` yields when no event carries a load time. -/
def avgLoadTime (evs : List ClickEvent) : Option Rat :=
  let ls := evs.filterMap (fun c => c.loadTime)
  match ls with
  | [] => none
  | _ => some ((ls.foldl (fun a b => a + b) 0 : Nat) / (ls.length : Rat))

/-- The overview facet: over an empty selection the source substitutes the
all-zero default object (`analytics.overview[0] || {...}`). -/
def overviewOf (evs : List ClickEvent) : Overview :=
  match evs with
  | [] => { totalClicks := 0, uniqueClicks := 0, botClicks := 0, averageLoadTime := some 0 }
  | _ => { totalClicks := evs.length,
           uniqueClicks := (evs.filter (fun c => c.isUnique)).length,
           botClicks := (evs.filter (fun c => c.isBot)).length,
           averageLoadTime := avgLoadTime evs }

/-- A row of the by-country facet. -/
structure CountryRow where
  country : String
  count : Nat
  countryName : Option String
  deriving DecidableEq, Repr

/-- The by-country facet: events with a country set, grouped by country
with a `$first` country name, sorted by count descending, top ten. -/
def byCountryOf (evs : List ClickEvent) : List CountryRow :=
  let withC := evs.filter (fun c => (countryOf c).isSome)
  let rows := (tally (withC.filterMap countryOf)).map (fun kv =>
    { country := kv.1, count := kv.2,
      countryName := (withC.find? (fun c => countryOf c == some kv.1)).bind
        (fun c => c.location.bind (fun l => l.countryName)) })
  (sortDescBy (fun r => r.count) rows).take 10

/-- The by-device facet: grouped by device type, sorted by count. -/
def byDeviceOf (evs : List ClickEvent) : List (String × Nat) :=
  sortDescBy (fun kv => kv.2) (tally (evs.map (fun c => c.deviceType)))

/-- The by-browser facet: events with a browser that is set and not the
literal Unknown, grouped, sorted, top ten. -/
def byBrowserOf (evs : List ClickEvent) : List (String × Nat) :=
  let withB := evs.filterMap (fun c => c.browser)
  let withB := withB.filter (fun b => !(b == "Unknown"))
  (sortDescBy (fun kv => kv.2) (tally withB)).take 10

/-- The by-referrer facet: events with a referrer set, grouped, sorted,
top ten. -/
def byReferrerOf (evs : List ClickEvent) : List (String × Nat) :=
  (sortDescBy (fun kv => kv.2) (tally (evs.filterMap (fun c => c.referrer)))).take 10

/-- UTC hour of day of a millisecond timestamp (Mongo `$hour`). -/
def hourOf (t : Nat) : Nat := (t / 3600000) % 24

/-- Epoch day of a millisecond timestamp.  The source groups by the Mongo
`($year, $month, $dayOfMonth)` triple; for timestamps at or after the
epoch that triple is in bijection with this day number, so grouping and
chronological sorting agree. -/
def dayOf (t : Nat) : Nat := t / 86400000

/-- A row of the hourly distribution facet. -/
structure HourRow where
  hour : Nat
  count : Nat
  uniqueUsersCount : Nat
  uniqueIPsCount : Nat
  deriving DecidableEq, Repr

/-- The hourly distribution: grouped by hour of day with distinct-user and
distinct-IP counts (`$addToSet` of `$userId` keeps the null of anonymous
clicks as a value), ascending by hour. -/
def clicksByHourOf (evs : List ClickEvent) : List HourRow :=
  let rows := (groupKeys (evs.map (fun c => hourOf c.clickedAt))).map (fun h =>
    let g := evs.filter (fun c => hourOf c.clickedAt == h)
    { hour := h, count := g.length,
      uniqueUsersCount := (groupKeys (g.map (fun c => c.userId))).length,
      uniqueIPsCount := (groupKeys (g.map (fun c => c.ipAddress))).length })
  sortAscBy (fun r => r.hour) rows

/-- A row of the daily distribution facet. -/
structure DayRow where
  day : Nat
  count : Nat
  uniqueVisitorsCount : Nat
  uniqueRegisteredUsersCount : Nat
  uniqueCountriesCount : Nat
  uniqueDeviceTypesCount : Nat
  botClicks : Nat
  humanClicks : Nat
  deriving DecidableEq, Repr

/-- Visitor identity used by the daily facet: the user id when logged in,
the IP address otherwise. -/
def visitorKey (c : ClickEvent) : Sum Nat String :=
  match c.userId with
  | some u => Sum.inl u
  | none => Sum.inr c.ipAddress

/-- The daily distribution facet of `getUrlAnalytics`. -/
def clicksByDayOf (evs : List ClickEvent) : List DayRow :=
  let rows := (groupKeys (evs.map (fun c => dayOf c.clickedAt))).map (fun d =>
    let g := evs.filter (fun c => dayOf c.clickedAt == d)
    let bots := (g.filter (fun c => c.isBot)).length
    { day := d, count := g.length,
      uniqueVisitorsCount := (groupKeys (g.map visitorKey)).length,
      uniqueRegisteredUsersCount := (groupKeys (g.filterMap (fun c => c.userId))).length,
      uniqueCountriesCount := (groupKeys (g.filterMap countryOf)).length,
      uniqueDeviceTypesCount := (groupKeys (g.map (fun c => c.deviceType))).length,
      botClicks := bots, humanClicks := g.length - bots })
  sortAscBy (fun r => r.day) rows

/-- The report assembled by `Click.getUrlAnalytics`. -/
structure AnalyticsReport where
  overview : Overview
  byCountry : List CountryRow
  byDevice : List (String × Nat)
  byBrowser : List (String × Nat)
  byReferrer : List (String × Nat)
  clicksByHour : List HourRow
  clicksByDay : List DayRow
  startDate : Nat
  endDate : Nat
  deriving DecidableEq, Repr

/-- Model of `Click.getUrlAnalytics`: filter the store by URL, date range and (by
default) bot exclusion, then compute every facet. -/
def getUrlAnalytics (store : List ClickEvent) (urlId : Nat) (now : Nat)
    (opts : AnalyticsOptions) : AnalyticsReport :=
  let startD := opts.startDate.getD (now - 30 * 86400000)
  let endD := opts.endDate.getD now
  let evs := store.filter (analyticsMatch urlId startD endD opts.excludeBots)
  { overview := overviewOf evs, byCountry := byCountryOf evs,
    byDevice := byDeviceOf evs, byBrowser := byBrowserOf evs,
    byReferrer := byReferrerOf evs, clicksByHour := clicksByHourOf evs,
    clicksByDay := clicksByDayOf evs, startDate := startD, endDate := endD }

/-- The real-time statistics object of `Click.getRealTimeStats`. -/
structure RealTime where
  recentClicks : Nat
  activeUrls : Nat
  activeCountries : Nat
  avgClicksPerMinute : Rat
  deriving DecidableEq, Repr

/-- The `$match` stage of `getRealTimeStats`: inside the trailing window
and not a bot. -/
def realtimeMatch (threshold : Nat) (c : ClickEvent) : Bool :=
  decide (threshold ≤ c.clickedAt) && !c.isBot

/-- Model of `Click.getRealTimeStats`: aggregate over the trailing window; an empty
window yields the all-zero default object (`stats || {...}`). -/
def getRealTimeStats (store : List ClickEvent) (now minutes : Nat) : RealTime :=
  let threshold := now - minutes * 60000
  let evs := store.filter (realtimeMatch threshold)
  match evs with
  | [] => { recentClicks := 0, activeUrls := 0, activeCountries := 0, avgClicksPerMinute := 0 }
  | _ => { recentClicks := evs.length,
           activeUrls := (groupKeys (evs.map (fun c => c.urlId))).length,
           activeCountries := (groupKeys (evs.filterMap countryOf)).length,
           avgClicksPerMinute := (evs.length : Rat) / (minutes : Rat) }

/-! ## Retention manager (`analyticsService.cleanupAnalyticsData`) -/

/-- The deletion criterion: clicked strictly before the cutoff. -/
def isOld (cutoff : Nat) (c : ClickEvent) : Bool :=
  decide (c.clickedAt < cutoff)

/-- One bounded `deleteMany` batch: remove up to `k` events older than the
cutoff (the store contract the source relies on with its
`{limit: batchSize}` option), returning the deleted count and the
remaining events. -/
def deleteBatch (cutoff : Nat) : Nat → List ClickEvent → Nat × List ClickEvent
  | 0, l => (0, l)
  | _ + 1, [] => (0, [])
  | k + 1, c :: rest =>
    if isOld cutoff c then
      ((deleteBatch cutoff k rest).1 + 1, (deleteBatch cutoff k rest).2)
    else
      ((deleteBatch cutoff (k + 1) rest).1, c :: (deleteBatch cutoff (k + 1) rest).2)

/-- The batched deletion loop of `cleanupAnalyticsData`: keep deleting
while a batch comes back full (`hasMore`), pausing before each further
batch.  Returns the per-batch deletion counts, the number of inter-batch
pauses taken, and the remaining events; `fuel` bounds the iteration and is
chosen large enough to never run out. -/
def cleanupLoop (cutoff batchSize : Nat) : Nat → List ClickEvent → List Nat × Nat × List ClickEvent
  | 0, l => ([], 0, l)
  | fuel + 1, l =>
    if (deleteBatch cutoff batchSize l).1 = batchSize then
      ((deleteBatch cutoff batchSize l).1 ::
         (cleanupLoop cutoff batchSize fuel (deleteBatch cutoff batchSize l).2).1,
       (cleanupLoop cutoff batchSize fuel (deleteBatch cutoff batchSize l).2).2.1 + 1,
       (cleanupLoop cutoff batchSize fuel (deleteBatch cutoff batchSize l).2).2.2)
    else ([(deleteBatch cutoff batchSize l).1], 0, (deleteBatch cutoff batchSize l).2)

/-- Outcome of `cleanupAnalyticsData`: either the dry-run report or the
deletion summary (with the per-batch counts and pause count kept as the
observable trace of the loop). -/
inductive CleanupOutcome
  | dryRunReport (recordsToDelete : Nat) (cutoffDate : Nat) (retentionDays : Nat)
  | deleted (deletedCount : Nat) (batchCounts : List Nat) (pauses : Nat)
      (cutoffDate : Nat) (retentionDays : Nat)
  deriving DecidableEq, Repr

/-- Model of `analyticsService.cleanupAnalyticsData`: in dry-run mode count the
events older than the cutoff without touching the store; otherwise delete
them in bounded batches with a pause between successive batches. -/
def cleanupAnalyticsData (s : SysState) (retentionDays batchSize : Nat)
    (dryRun : Bool) (now : Nat) : CleanupOutcome × SysState :=
  let cutoff := now - retentionDays * 86400000
  if dryRun then
    (CleanupOutcome.dryRunReport ((s.clicks.filter (isOld cutoff)).length) cutoff retentionDays, s)
  else
    let r := cleanupLoop cutoff batchSize (s.clicks.length + 1) s.clicks
    (CleanupOutcome.deleted r.1.sum r.1 r.2.1 cutoff retentionDays,
     { s with clicks := r.2.2 })

/-! ## Lemmas about IP validation -/

theorem splitOnChar_ne_nil (sep : Char) (l : List Char) : splitOnChar sep l ≠ [] := by
  cases l with
  | nil => simp [splitOnChar]
  | cons c rest =>
    by_cases h : c = sep
    · simp [splitOnChar, h]
    · simp only [splitOnChar, if_neg h]
      cases hs : splitOnChar sep rest <;> simp

theorem validIPv4_head {s : String} (h : isValidIPv4 s = true) :
    ∃ ch t, s.data = ch :: t ∧ ch.isDigit = true := by
  simp only [isValidIPv4, Bool.and_eq_true, decide_eq_true_eq, List.all_eq_true] at h
  obtain ⟨hlen, hall⟩ := h
  cases hd : s.data with
  | nil => rw [hd] at hlen; simp [splitOnChar] at hlen
  | cons ch t =>
    rw [hd] at hall
    by_cases hc : ch = '.'
    · have h0 : ([] : List Char) ∈ splitOnChar '.' (ch :: t) := by
        simp [splitOnChar, hc]
      have := hall _ h0
      simp [octetOk] at this
    · cases hs : splitOnChar '.' t with
      | nil => exact absurd hs (splitOnChar_ne_nil _ _)
      | cons p ps =>
        have hmem : (ch :: p) ∈ splitOnChar '.' (ch :: t) := by
          simp [splitOnChar, hc, hs]
        have hok := hall _ hmem
        simp only [octetOk, Bool.and_eq_true, decide_eq_true_eq, List.all_eq_true] at hok
        exact ⟨ch, t, rfl, hok.1.2 ch (by simp)⟩

theorem validIPv4_normCandidate {c : String} (h : isValidIPv4 c = true) :
    normCandidate c = c := by
  have h1 : strStarts c "::ffff:" = false := by
    obtain ⟨ch, t, hd, hdig⟩ := validIPv4_head h
    by_contra hcon
    rw [Bool.not_eq_false] at hcon
    have hm : "::ffff:".data = [':', ':', 'f', 'f', 'f', 'f', ':'] := rfl
    simp only [strStarts, hd, hm, beq_iff_eq] at hcon
    rw [show ([':', ':', 'f', 'f', 'f', 'f', ':'] : List Char).length = 7 from rfl,
        show List.take 7 (ch :: t) = ch :: List.take 6 t from rfl] at hcon
    injection hcon with hch _
    rw [hch] at hdig
    exact absurd hdig (by decide)
  have h2 : (c == "::1") = false := by
    rw [beq_eq_false_iff_ne]
    intro he; rw [he] at h; exact absurd h (by decide)
  have h3 : (c == "localhost") = false := by
    rw [beq_eq_false_iff_ne]
    intro he; rw [he] at h; exact absurd h (by decide)
  simp [normCandidate, h1, h2, h3]

theorem pickFirstValid_valid : ∀ l, isValidIPv4 (pickFirstValid l) = true := by
  intro l
  induction l with
  | nil => decide
  | cons c rest ih =>
    unfold pickFirstValid
    by_cases hc : isValidIPv4 (normCandidate c) = true
    · simp [hc]
    · simp only [Bool.not_eq_true] at hc
      simp [hc, ih]

theorem pickFirstValid_skip : ∀ (pre : List String) (c : String) (post : List String),
    (∀ x ∈ pre, isValidIPv4 (normCandidate x) = false) →
    isValidIPv4 c = true → pickFirstValid (pre ++ c :: post) = c := by
  intro pre
  induction pre with
  | nil =>
    intro c post _ hc
    simp [pickFirstValid, validIPv4_normCandidate hc, hc]
  | cons x xs ih =>
    intro c post hpre hc
    have hx := hpre x (by simp)
    simp only [List.cons_append]
    unfold pickFirstValid
    simp only [hx]
    simp only [Bool.false_eq_true, if_false]
    exact ih c post (fun y hy => hpre y (by simp [hy])) hc

theorem pickFirstValid_fallback : ∀ (l : List String),
    (∀ x ∈ l, isValidIPv4 (normCandidate x) = false) →
    pickFirstValid l = "127.0.0.1" := by
  intro l
  induction l with
  | nil => intro _; rfl
  | cons x xs ih =>
    intro hall
    have hx := hall x (by simp)
    unfold pickFirstValid
    simp only [hx, Bool.false_eq_true, if_false]
    exact ih (fun y hy => hall y (by simp [hy]))

/-- C5: for every raw candidate and forwarded headers the normalizer
returns a syntactically valid IPv4 string; the first candidate that
normalizes to a valid IPv4 address (in particular an already-valid direct
candidate) is returned unchanged; a direct `::1` or `localhost` maps to
`127.0.0.1`; and when no candidate validates the result is `127.0.0.1`. -/
theorem normalizeIp_spec :
    (∀ ip h, isValidIPv4 (normalizeIpAddress ip h) = true) ∧
    (∀ ip h pre c post, ipSources ip h = pre ++ c :: post →
      (∀ x ∈ pre, isValidIPv4 (normCandidate x) = false) →
      isValidIPv4 c = true → normalizeIpAddress ip h = c) ∧
    (∀ h, normalizeIpAddress (some "::1") h = "127.0.0.1") ∧
    (∀ h, normalizeIpAddress (some "localhost") h = "127.0.0.1") ∧
    (∀ ip h, (∀ c ∈ ipSources ip h, isValidIPv4 (normCandidate c) = false) →
      normalizeIpAddress ip h = "127.0.0.1") := by
  refine ⟨?_, ?_, ?_, ?_, ?_⟩
  · intro ip h; exact pickFirstValid_valid _
  · intro ip h pre c post hsrc hpre hc
    unfold normalizeIpAddress
    rw [hsrc]
    exact pickFirstValid_skip pre c post hpre hc
  · intro h
    have hsrc : ipSources (some "::1") h = "::1" ::
        (([h.cfConnectingIp, h.xRealIp, extractFromForwardedFor h.xForwardedFor,
           h.xClientIp, h.xForwarded, h.forwardedFor, h.forwarded].filterMap id).filter
          (fun c => !(c == ""))) := by
      simp [ipSources]
    unfold normalizeIpAddress
    rw [hsrc]
    unfold pickFirstValid
    have h1 : normCandidate "::1" = "127.0.0.1" := by decide
    have h2 : isValidIPv4 "127.0.0.1" = true := by decide
    rw [h1]
    simp [h2]
  · intro h
    have hsrc : ipSources (some "localhost") h = "localhost" ::
        (([h.cfConnectingIp, h.xRealIp, extractFromForwardedFor h.xForwardedFor,
           h.xClientIp, h.xForwarded, h.forwardedFor, h.forwarded].filterMap id).filter
          (fun c => !(c == ""))) := by
      simp [ipSources]
    unfold normalizeIpAddress
    rw [hsrc]
    unfold pickFirstValid
    have h1 : normCandidate "localhost" = "127.0.0.1" := by decide
    have h2 : isValidIPv4 "127.0.0.1" = true := by decide
    rw [h1]
    simp [h2]
  · intro ip h hall
    exact pickFirstValid_fallback _ hall

/-- Witness for C5: a valid direct IPv4 candidate is returned unchanged. -/
theorem normalizeIp_spec_witness : normalizeIpAddress (some "8.8.8.8") {} = "8.8.8.8" := by
  have hsrc : ipSources (some "8.8.8.8") {} = [] ++ "8.8.8.8" :: [] := by decide
  exact normalizeIp_spec.2.1 (some "8.8.8.8") {} [] "8.8.8.8" [] hsrc
    (by intro x hx; simp at hx) (by decide)

/-! ## Geolocation short-circuit and bot classification -/

/-- C8: a new click whose IP is one of the two loopback literals or starts
with `192.168.`, `10.` or `172.` gets the fixed Local/Private placeholder
with no external lookup — including `172.32.0.1`, which lies outside
172.16.0.0/12 and is therefore classified public by `_isPublicIP`. -/
theorem geoLocal_spec :
    (∀ (lookup : String → Option LocRec) (cur : Option LocRec) (ip : String),
      (ip = "127.0.0.1" ∨ ip = "::1" ∨ strStarts ip "192.168." = true ∨
       strStarts ip "10." = true ∨ strStarts ip "172." = true) →
      geoHook true lookup true ip cur = (some localPlaceholder, false)) ∧
    strStarts "172.32.0.1" "172." = true ∧
    isPublicIP "172.32.0.1" = true := by
  refine ⟨?_, by decide, by decide⟩
  intro lookup cur ip hip
  have hlocal : geoLocalIp ip = true := by
    rcases hip with h | h | h | h | h <;> simp [geoLocalIp, h]
  have hne : (ip == "") = false := by
    rw [beq_eq_false_iff_ne]
    intro he
    rw [he] at hip
    rcases hip with h | h | h | h | h <;> exact absurd h (by decide)
  simp [geoHook, hne, hlocal]

/-- Witness for C8: the geolocation hook short-circuits on `172.32.0.1`. -/
theorem geoLocal_spec_witness :
    geoHook true (fun _ => none) true "172.32.0.1" none = (some localPlaceholder, false) :=
  geoLocal_spec.1 (fun _ => none) none "172.32.0.1"
    (Or.inr (Or.inr (Or.inr (Or.inr (by decide)))))

/-- C10: for a new click with a non-empty user-agent the stored `isBot`
flag (as the pre-save hook computes it inside `buildClick`) is true exactly
when some fixed pattern matches case-insensitively; a user-agent merely
containing `google` or `facebook` matches; any event flagged as a bot is
excluded by the analytics `$match` stage when bots are excluded, and the
`excludeBots` option defaults to true. -/
theorem botDetect_spec :
    (∀ env inp ip isU ua, inp.userAgent = some ua → ua ≠ "" →
      ((buildClick env inp ip isU).isBot = true ↔
        ∃ p ∈ botPatterns, matchesCI ua p = true)) ∧
    (detectBot "Mozilla/5.0 (X11; GoogleTV) AppleWebKit" = true ∧
     detectBot "facebookexternalhit/1.1" = true ∧
     detectBot "Mozilla/5.0 (Windows NT 10.0) Chrome/115.0" = false) ∧
    (∀ c urlId startD endD, c.isBot = true →
      analyticsMatch urlId startD endD true c = false) ∧
    (({} : AnalyticsOptions).excludeBots = true) := by
  refine ⟨?_, ⟨by decide, by decide, by decide⟩, ?_, rfl⟩
  · intro env inp ip isU ua hua hne
    have hne' : (ua == "") = false := beq_eq_false_iff_ne.mpr hne
    show botHook true inp.userAgent false = true ↔ _
    rw [hua]
    simp [botHook, hne', detectBot, List.any_eq_true]
  · intro c urlId startD endD hbot
    simp [analyticsMatch, hbot]

/-- Witness for C10: a curl user-agent is stored as a bot. -/
theorem botDetect_spec_witness :
    ((buildClick { enableGeo := true, geoLookup := fun _ => none, now := 0 }
        { urlId := 1, userAgent := some "curl/8.0" } "8.8.8.8" true).isBot = true ↔
      ∃ p ∈ botPatterns, matchesCI "curl/8.0" p = true) :=
  botDetect_spec.1 { enableGeo := true, geoLookup := fun _ => none, now := 0 }
    { urlId := 1, userAgent := some "curl/8.0" } "8.8.8.8" true "curl/8.0" rfl (by decide)

/-! ## Lemmas about the ingestion pipeline -/

/-- The uniqueness flag `recordClick` computes for the event it is about
to persist (step 3 of the pipeline). -/
def ingestUnique (f : Faults) (s : SysState) (inp : ClickInput) : Bool :=
  isUniqueClick (if f.lookupFails = true then Except.error DbError.failure
    else Except.ok (findOneByUrlIp s.clicks inp.urlId
      (normalizeIpAddress inp.ipAddress inp.headers)))

theorem resolveUrl_ok {urls : List UrlDoc} {id : Nat} {url : UrlDoc}
    (hfind : findUrl urls id = some url) (hact : url.isActive = true)
    (hexp : url.isExpired = false) : resolveUrl urls id = Except.ok url := by
  simp [resolveUrl, hfind, hact, hexp]

theorem recordClick_err (env : Env) (f : Faults) (s : SysState) (inp : ClickInput)
    (e : RecordError) (hres : resolveUrl s.urls inp.urlId = Except.error e) :
    recordClick env f s inp = (Except.error e, s) := by
  unfold recordClick
  rw [hres]

theorem recordClick_saveFail (env : Env) (f : Faults) (s : SysState) (inp : ClickInput)
    (url : UrlDoc) (hres : resolveUrl s.urls inp.urlId = Except.ok url)
    (hsave : f.saveFails = true) :
    recordClick env f s inp = (Except.error (RecordError.storage "click save failed"), s) := by
  unfold recordClick
  rw [hres]
  simp [hsave]

theorem recordClick_ok (env : Env) (f : Faults) (s : SysState) (inp : ClickInput)
    (url : UrlDoc) (hres : resolveUrl s.urls inp.urlId = Except.ok url)
    (hsave : f.saveFails = false) :
    recordClick env f s inp =
      (Except.ok { isUnique := ingestUnique f s inp, redirectUrl := url.originalUrl,
                   totalClicks := url.clickCount + 1,
                   uniqueClicks := url.uniqueClicks + (if ingestUnique f s inp then 1 else 0) },
       { clicks := s.clicks ++ [buildClick env inp
           (normalizeIpAddress inp.ipAddress inp.headers) (ingestUnique f s inp)],
         urls := if f.statsFails = true then s.urls
                 else updateUrlStats s.urls url.id (ingestUnique f s inp) env.now,
         users := match url.userId with
                  | none => s.users
                  | some uid => if f.userStatsFails = true then s.users
                                else updateUserStats s.users uid 1 }) := by
  unfold recordClick
  rw [hres]
  simp only [hsave, Bool.false_eq_true, if_false, ingestUnique]
  cases hst : f.statsFails <;> cases hu : url.userId <;> cases hus : f.userStatsFails <;> simp

/-! ## Concrete fixtures used by witnesses and counterexamples -/

/-- A trivial external geolocation resolver (always no data). -/
def lookup0 : String → Option LocRec := fun _ => none

/-- A concrete ingestion environment. -/
def env0 : Env := { enableGeo := true, geoLookup := lookup0, now := 1000 }

/-- An active, non-expired URL document. -/
def url0 : UrlDoc :=
  { id := 1, isActive := true, isExpired := false, originalUrl := "https://example.com",
    userId := none, clickCount := 0, uniqueClicks := 0, lastClickedAt := none }

/-- An inactive URL document. -/
def urlInactive : UrlDoc := { url0 with id := 2, isActive := false }

/-- A store holding one active and one inactive URL, no clicks, no users. -/
def state0 : SysState := { clicks := [], urls := [url0, urlInactive], users := [] }

/-- A concrete click submission against the active URL. -/
def inp0 : ClickInput := { urlId := 1, ipAddress := some "8.8.8.8", userAgent := some "curl/8.0" }

/-- A concrete click submission against the inactive URL. -/
def inpInactive : ClickInput := { inp0 with urlId := 2 }

/-! ## C3: absent, inactive and expired URLs -/

/-- C3: whenever the target URL is absent, inactive or expired,
`recordClick` fails with the NotFound taxonomy member and leaves the whole
store untouched — the three conditions all take the same error path before
any write. -/
theorem notFound_spec : ∀ (env : Env) (f : Faults) (s : SysState) (inp : ClickInput),
    (findUrl s.urls inp.urlId = none ∨
     (∃ url, findUrl s.urls inp.urlId = some url ∧
       (url.isActive = false ∨ url.isExpired = true))) →
    ∃ msg, recordClick env f s inp = (Except.error (RecordError.notFound msg), s) := by
  intro env f s inp h
  rcases h with hnone | ⟨url, hfind, hbad⟩
  · exact ⟨"URL not found or inactive",
      recordClick_err env f s inp _ (by simp [resolveUrl, hnone])⟩
  · rcases hbad with hina | hexp
    · exact ⟨"URL not found or inactive",
        recordClick_err env f s inp _ (by simp [resolveUrl, hfind, hina])⟩
    · by_cases hact : url.isActive = false
      · exact ⟨"URL not found or inactive",
          recordClick_err env f s inp _ (by simp [resolveUrl, hfind, hact])⟩
      · rw [Bool.not_eq_false] at hact
        exact ⟨"URL has expired",
          recordClick_err env f s inp _ (by simp [resolveUrl, hfind, hact, hexp])⟩

/-- Witness for C3: recording against the inactive URL fails with
NotFound and changes nothing. -/
theorem notFound_spec_witness :
    ∃ msg, recordClick env0 noFaults state0 inpInactive =
      (Except.error (RecordError.notFound msg), state0) :=
  notFound_spec env0 noFaults state0 inpInactive
    (Or.inr ⟨urlInactive, by decide, Or.inl (by decide)⟩)

/-! ## C4: storage failures -/

/-- Counterexample to C4: with an injected counter-update failure (and the
event write succeeding), `recordClick` on a concrete store still returns
success — the `_updateUrlStats` failure is caught and logged inside that
helper, not propagated to the caller as the claim asserts. -/
theorem statsFailure_cex :
    (recordClick env0 { statsFails := true } state0 inp0).fst =
      Except.ok { isUnique := true, redirectUrl := "https://example.com",
                  totalClicks := 1, uniqueClicks := 1 } := by
  rfl

/-- C4 (amended): if persisting the click event fails, `recordClick`
propagates a storage failure and the whole state (counters included) is
unchanged; if the counter increment fails instead, the failure is absorbed
inside `_updateUrlStats`, `recordClick` still returns success, the click
event remains persisted and the URL counters are unchanged. -/
theorem storageFailure_spec : ∀ (env : Env) (f : Faults) (s : SysState) (inp : ClickInput)
    (url : UrlDoc), findUrl s.urls inp.urlId = some url → url.isActive = true →
    url.isExpired = false →
    (f.saveFails = true →
      recordClick env f s inp = (Except.error (RecordError.storage "click save failed"), s)) ∧
    (f.saveFails = false → f.statsFails = true →
      (recordClick env f s inp).fst =
        Except.ok { isUnique := ingestUnique f s inp, redirectUrl := url.originalUrl,
                    totalClicks := url.clickCount + 1,
                    uniqueClicks := url.uniqueClicks +
                      (if ingestUnique f s inp then 1 else 0) } ∧
      (recordClick env f s inp).snd.urls = s.urls ∧
      (recordClick env f s inp).snd.clicks = s.clicks ++
        [buildClick env inp (normalizeIpAddress inp.ipAddress inp.headers)
          (ingestUnique f s inp)]) := by
  intro env f s inp url hfind hact hexp
  have hres := resolveUrl_ok hfind hact hexp
  constructor
  · intro hsave
    exact recordClick_saveFail env f s inp url hres hsave
  · intro hsave hstats
    rw [recordClick_ok env f s inp url hres hsave]
    refine ⟨rfl, ?_, rfl⟩
    simp [hstats]

/-- Witness for C4 (amended): a concrete save failure is propagated with
the state unchanged. -/
theorem storageFailure_spec_witness :
    recordClick env0 { saveFails := true } state0 inp0 =
      (Except.error (RecordError.storage "click save failed"), state0) :=
  ((storageFailure_spec env0 { saveFails := true } state0 inp0 url0
    (by decide) (by decide) (by decide)).1) rfl

/-! ## C9: uniqueness lookup errors are absorbed -/

/-- C9: a failed prior-event lookup makes `isUniqueClick` return false
rather than propagate (while a successful lookup answers exactly whether
no prior event exists), so when the lookup errs the event `recordClick`
persists carries `isUnique = false` regardless of the store contents. -/
theorem uniqueLookupError_spec :
    (∀ ε : DbError, isUniqueClick (Except.error ε) = false) ∧
    (∀ existing : Option ClickEvent, isUniqueClick (Except.ok existing) = existing.isNone) ∧
    (∀ (env : Env) (s : SysState) (inp : ClickInput) (url : UrlDoc),
      findUrl s.urls inp.urlId = some url → url.isActive = true → url.isExpired = false →
      (recordClick env { lookupFails := true } s inp).snd.clicks =
        s.clicks ++ [buildClick env inp (normalizeIpAddress inp.ipAddress inp.headers) false]) := by
  refine ⟨fun ε => rfl, fun existing => rfl, ?_⟩
  intro env s inp url hfind hact hexp
  rw [recordClick_ok env { lookupFails := true } s inp url (resolveUrl_ok hfind hact hexp) rfl]
  simp [ingestUnique, isUniqueClick]

/-- Witness for C9: on an empty event store (where the click would have
been unique) a lookup error still records it as non-unique. -/
theorem uniqueLookupError_spec_witness :
    (recordClick env0 { lookupFails := true } state0 inp0).snd.clicks =
      state0.clicks ++ [buildClick env0 inp0
        (normalizeIpAddress inp0.ipAddress inp0.headers) false] :=
  uniqueLookupError_spec.2.2 env0 state0 inp0 url0 (by decide) (by decide) (by decide)

/-! ## C2: counter invariants -/

/-- Relation between a URL document before and after one core operation:
identity preserved, both counters non-decreasing, and the
unique-at-most-total inequality preserved. -/
def urlMono (old new : UrlDoc) : Prop :=
  old.id = new.id ∧ old.clickCount ≤ new.clickCount ∧
  old.uniqueClicks ≤ new.uniqueClicks ∧
  (old.uniqueClicks ≤ old.clickCount → new.uniqueClicks ≤ new.clickCount)

/-- The spec invariant: every stored URL has at most as many unique clicks
as total clicks. -/
def statsInv (s : SysState) : Prop :=
  ∀ u ∈ s.urls, u.uniqueClicks ≤ u.clickCount

theorem urlMono_refl (u : UrlDoc) : urlMono u u :=
  ⟨rfl, le_refl _, le_refl _, fun h => h⟩

theorem forall2_mono_self (l : List UrlDoc) : List.Forall₂ urlMono l l :=
  List.forall₂_same.mpr fun x _ => urlMono_refl x

theorem forall2_statsInv {l l' : List UrlDoc} (hf : List.Forall₂ urlMono l l')
    (h : ∀ u ∈ l, u.uniqueClicks ≤ u.clickCount) :
    ∀ u ∈ l', u.uniqueClicks ≤ u.clickCount := by
  induction hf with
  | nil => intro u hu; simp at hu
  | @cons a b l₁ l₂ hr hrest ih =>
    intro u hu
    rcases List.mem_cons.mp hu with rfl | hu
    · exact hr.2.2.2 (h a (by simp))
    · exact ih (fun v hv => h v (by simp [hv])) u hu

theorem recordClick_forall2 (env : Env) (f : Faults) (s : SysState) (inp : ClickInput) :
    List.Forall₂ urlMono s.urls (recordClick env f s inp).snd.urls := by
  cases hres : resolveUrl s.urls inp.urlId with
  | error e =>
    rw [recordClick_err env f s inp e hres]
    exact forall2_mono_self _
  | ok url =>
    cases hsave : f.saveFails with
    | true =>
      rw [recordClick_saveFail env f s inp url hres hsave]
      exact forall2_mono_self _
    | false =>
      rw [recordClick_ok env f s inp url hres hsave]
      cases hst : f.statsFails with
      | true =>
        simp only [if_true]
        exact forall2_mono_self _
      | false =>
        simp only [hst, Bool.false_eq_true, if_false]
        unfold updateUrlStats
        rw [List.forall₂_map_right_iff]
        apply List.forall₂_same.mpr
        intro x _
        by_cases hid : (x.id == url.id) = true
        · simp only [hid, if_true]
          refine ⟨by simp [applyUrlStats], by simp [applyUrlStats], ?_, ?_⟩
          · cases ingestUnique f s inp <;> simp [applyUrlStats]
          · intro h
            cases ingestUnique f s inp <;> simp [applyUrlStats] <;> omega
        · simp only [hid, if_false]
          exact urlMono_refl x

/-- C2: `_updateUrlStats` adds exactly one to the total counter, one to the
unique counter exactly when the click was unique, and sets the last-clicked
timestamp; every `recordClick` (under any fault pattern) relates each
stored URL document to its successor by `urlMono` (so both counters are
non-decreasing and `uniqueClickCount ≤ totalClickCount` is preserved); and
the retention sweep never touches the URL counters. -/
theorem counters_spec :
    (∀ (u : UrlDoc) (isU : Bool) (now : Nat),
      (applyUrlStats u isU now).clickCount = u.clickCount + 1 ∧
      (applyUrlStats u isU now).uniqueClicks = u.uniqueClicks + (if isU then 1 else 0) ∧
      (applyUrlStats u isU now).lastClickedAt = some now) ∧
    (∀ (env : Env) (f : Faults) (s : SysState) (inp : ClickInput),
      List.Forall₂ urlMono s.urls (recordClick env f s inp).snd.urls) ∧
    (∀ (env : Env) (f : Faults) (s : SysState) (inp : ClickInput),
      statsInv s → statsInv (recordClick env f s inp).snd) ∧
    (∀ (s : SysState) (retentionDays batchSize : Nat) (dryRun : Bool) (now : Nat),
      (cleanupAnalyticsData s retentionDays batchSize dryRun now).snd.urls = s.urls) := by
  refine ⟨?_, recordClick_forall2, ?_, ?_⟩
  · intro u isU now
    exact ⟨rfl, rfl, rfl⟩
  · intro env f s inp hinv
    exact forall2_statsInv (recordClick_forall2 env f s inp) hinv
  · intro s rd bs dry now
    unfold cleanupAnalyticsData
    cases dry <;> simp

/-- Witness for C2: the invariant survives a concrete ingestion. -/
theorem counters_spec_witness : statsInv (recordClick env0 noFaults state0 inp0).snd :=
  counters_spec.2.2.1 env0 noFaults state0 inp0 (by
    intro u hu
    simp only [state0, List.mem_cons, List.mem_singleton, List.not_mem_nil] at hu
    rcases hu with rfl | rfl | h
    · decide
    · decide
    · exact absurd h (by simp))

/-! ## C1: exactly the first event per (url, ip) pair is unique -/

/-- The recorded events of one (url id, normalized IP) pair, oldest
first. -/
def pairClicks (u : Nat) (a : String) (l : List ClickEvent) : List ClickEvent :=
  l.filter (clickMatches u a)

/-- The pair's history is well-formed: its first event (if any) is marked
unique and every later one is marked non-unique. -/
def firstOnlyUnique : List ClickEvent → Prop
  | [] => True
  | c :: rest => c.isUnique = true ∧ ∀ c' ∈ rest, c'.isUnique = false

theorem findOne_none_iff (l : List ClickEvent) (u : Nat) (a : String) :
    findOneByUrlIp l u a = none ↔ pairClicks u a l = [] := by
  simp [findOneByUrlIp, pairClicks, List.find?_eq_none, List.filter_eq_nil_iff]

theorem firstOnlyUnique_append {l : List ClickEvent} {e : ClickEvent}
    (h : firstOnlyUnique l)
    (hnil : l = [] → e.isUnique = true)
    (hcons : l ≠ [] → e.isUnique = false) :
    firstOnlyUnique (l ++ [e]) := by
  cases l with
  | nil =>
    refine ⟨hnil rfl, ?_⟩
    intro c' hc'
    exact absurd hc' (List.not_mem_nil c')
  | cons c rest =>
    obtain ⟨hc, hrest⟩ := h
    rw [List.cons_append]
    refine ⟨hc, ?_⟩
    intro c' hc'
    rcases List.mem_append.mp hc' with hmem | hmem
    · exact hrest c' hmem
    · rw [List.mem_singleton.mp hmem]
      exact hcons (by simp)

theorem step_preserves (env : Env) (inp : ClickInput) (s : SysState) (u : Nat) (a : String)
    (h : firstOnlyUnique (pairClicks u a s.clicks)) :
    firstOnlyUnique (pairClicks u a (recordClick env noFaults s inp).snd.clicks) := by
  cases hres : resolveUrl s.urls inp.urlId with
  | error e =>
    rw [recordClick_err env noFaults s inp e hres]
    exact h
  | ok url =>
    rw [recordClick_ok env noFaults s inp url hres rfl]
    show firstOnlyUnique (pairClicks u a (s.clicks ++
      [buildClick env inp (normalizeIpAddress inp.ipAddress inp.headers)
        (ingestUnique noFaults s inp)]))
    unfold pairClicks
    rw [List.filter_append]
    by_cases hm : clickMatches u a (buildClick env inp
        (normalizeIpAddress inp.ipAddress inp.headers) (ingestUnique noFaults s inp)) = true
    · have hflt : List.filter (clickMatches u a)
          [buildClick env inp (normalizeIpAddress inp.ipAddress inp.headers)
            (ingestUnique noFaults s inp)] =
          [buildClick env inp (normalizeIpAddress inp.ipAddress inp.headers)
            (ingestUnique noFaults s inp)] := by
        simp [hm]
      rw [hflt]
      have hm' := hm
      simp only [clickMatches, Bool.and_eq_true, beq_iff_eq] at hm'
      have h1 : inp.urlId = u := hm'.1
      have h2 : normalizeIpAddress inp.ipAddress inp.headers = a := hm'.2
      have hiu : ingestUnique noFaults s inp =
          (findOneByUrlIp s.clicks u a).isNone := by
        unfold ingestUnique
        rw [h1, h2]
        rfl
      apply firstOnlyUnique_append h
      · intro hp
        show ingestUnique noFaults s inp = true
        rw [hiu, (findOne_none_iff s.clicks u a).mpr hp]
        rfl
      · intro hp
        show ingestUnique noFaults s inp = false
        cases hf : findOneByUrlIp s.clicks u a with
        | none => exact absurd ((findOne_none_iff s.clicks u a).mp hf) hp
        | some c => rw [hiu, hf]; rfl
    · have hflt : List.filter (clickMatches u a)
          [buildClick env inp (normalizeIpAddress inp.ipAddress inp.headers)
            (ingestUnique noFaults s inp)] = [] := by
        simp [hm]
      rw [hflt, List.append_nil]
      exact h

theorem runTrace_inv (steps : List (Env × ClickInput)) :
    ∀ s : SysState, (∀ u a, firstOnlyUnique (pairClicks u a s.clicks)) →
    ∀ u a, firstOnlyUnique (pairClicks u a (runTrace steps s).clicks) := by
  induction steps with
  | nil => intro s h; exact h
  | cons p rest ih =>
    intro s h
    exact ih _ (fun u a => step_preserves p.1 p.2 s u a (h u a))

/-- C1: starting from an empty event store, after any sequence of
sequential `recordClick` ingestions with all store operations succeeding,
the recorded events of each (url id, normalized IP) pair have exactly the
first one marked unique and every later one marked non-unique. -/
theorem uniqueFirst_spec : ∀ (steps : List (Env × ClickInput)) (urls : List UrlDoc)
    (users : List UserDoc) (u : Nat) (a : String),
    firstOnlyUnique (pairClicks u a
      (runTrace steps { clicks := [], urls := urls, users := users }).clicks) := by
  intro steps urls users u a
  exact runTrace_inv steps { clicks := [], urls := urls, users := users }
    (fun _ _ => trivial) u a

/-! ## C6: empty selections yield zeroed structures -/

/-- C6: when the per-URL analytics filter selects no events, every overview
counter is zero (with the defaulted zero average load time) and every facet
list is empty; and when the real-time window holds no events, the real-time
statistics are all zero.  Both are plain total functions of the store, so
neither can raise an error. -/
theorem emptyAggregation_spec :
    (∀ (store : List ClickEvent) (urlId now : Nat) (opts : AnalyticsOptions),
      store.filter (analyticsMatch urlId (opts.startDate.getD (now - 30 * 86400000))
        (opts.endDate.getD now) opts.excludeBots) = [] →
      getUrlAnalytics store urlId now opts =
        { overview := { totalClicks := 0, uniqueClicks := 0, botClicks := 0,
                        averageLoadTime := some 0 },
          byCountry := [], byDevice := [], byBrowser := [], byReferrer := [],
          clicksByHour := [], clicksByDay := [],
          startDate := opts.startDate.getD (now - 30 * 86400000),
          endDate := opts.endDate.getD now }) ∧
    (∀ (store : List ClickEvent) (now minutes : Nat),
      store.filter (realtimeMatch (now - minutes * 60000)) = [] →
      getRealTimeStats store now minutes =
        { recentClicks := 0, activeUrls := 0, activeCountries := 0,
          avgClicksPerMinute := 0 }) := by
  constructor
  · intro store urlId now opts h
    unfold getUrlAnalytics
    simp only [h]
    rfl
  · intro store now minutes h
    unfold getRealTimeStats
    simp only [h]

/-- Witness for C6: both queries over an empty store. -/
theorem emptyAggregation_spec_witness :
    getUrlAnalytics [] 1 0 {} =
      { overview := { totalClicks := 0, uniqueClicks := 0, botClicks := 0,
                      averageLoadTime := some 0 },
        byCountry := [], byDevice := [], byBrowser := [], byReferrer := [],
        clicksByHour := [], clicksByDay := [],
        startDate := ((({} : AnalyticsOptions)).startDate.getD (0 - 30 * 86400000)),
        endDate := ((({} : AnalyticsOptions)).endDate.getD 0) } ∧
    getRealTimeStats [] 0 60 =
      { recentClicks := 0, activeUrls := 0, activeCountries := 0,
        avgClicksPerMinute := 0 } :=
  ⟨emptyAggregation_spec.1 [] 1 0 {} rfl, emptyAggregation_spec.2 [] 0 60 rfl⟩

/-! ## C7: the retention purge -/

theorem deleteBatch_fst (cutoff : Nat) : ∀ (k : Nat) (l : List ClickEvent),
    (deleteBatch cutoff k l).1 = min k ((l.filter (isOld cutoff)).length) := by
  intro k l
  induction l generalizing k with
  | nil => cases k <;> simp [deleteBatch]
  | cons c rest ih =>
    cases k with
    | zero => simp [deleteBatch]
    | succ k =>
      by_cases hc : isOld cutoff c = true
      · simp only [deleteBatch, hc, if_true, List.filter_cons_of_pos, List.length_cons]
        rw [ih k]
        omega
      · simp only [Bool.not_eq_true] at hc
        simp only [deleteBatch, hc, Bool.false_eq_true, if_false]
        rw [List.filter_cons_of_neg (by simp [hc])]
        exact ih (k + 1)

theorem deleteBatch_snd (cutoff : Nat) : ∀ (k : Nat) (l : List ClickEvent),
    (((deleteBatch cutoff k l).2).filter (isOld cutoff)).length =
      ((l.filter (isOld cutoff)).length) - (deleteBatch cutoff k l).1 := by
  intro k l
  induction l generalizing k with
  | nil => cases k <;> simp [deleteBatch]
  | cons c rest ih =>
    cases k with
    | zero => simp [deleteBatch]
    | succ k =>
      by_cases hc : isOld cutoff c = true
      · simp only [deleteBatch, hc, if_true, List.filter_cons_of_pos, List.length_cons]
        rw [ih k, deleteBatch_fst cutoff k rest]
        omega
      · simp only [Bool.not_eq_true] at hc
        simp only [deleteBatch, hc, Bool.false_eq_true, if_false]
        rw [List.filter_cons_of_neg (by simp [hc]), List.filter_cons_of_neg (by simp [hc])]
        exact ih (k + 1)

theorem cleanupLoop_spec (cutoff batchSize : Nat) (hbs : 0 < batchSize) :
    ∀ (fuel : Nat) (l : List ClickEvent),
    (l.filter (isOld cutoff)).length + 1 ≤ fuel →
    (cleanupLoop cutoff batchSize fuel l).1.sum = (l.filter (isOld cutoff)).length ∧
    (cleanupLoop cutoff batchSize fuel l).1 ≠ [] ∧
    (∀ d ∈ (cleanupLoop cutoff batchSize fuel l).1, d ≤ batchSize) ∧
    (cleanupLoop cutoff batchSize fuel l).2.1 + 1 = (cleanupLoop cutoff batchSize fuel l).1.length ∧
    (((cleanupLoop cutoff batchSize fuel l).2.2).filter (isOld cutoff)).length = 0 := by
  intro fuel
  induction fuel with
  | zero => intro l hf; omega
  | succ fuel ih =>
    intro l hf
    have hfst := deleteBatch_fst cutoff batchSize l
    have hsnd := deleteBatch_snd cutoff batchSize l
    by_cases hcond : (deleteBatch cutoff batchSize l).1 = batchSize
    · have hle : batchSize ≤ (l.filter (isOld cutoff)).length := by
        rw [hfst] at hcond
        omega
      have hrem : (((deleteBatch cutoff batchSize l).2).filter (isOld cutoff)).length =
          (l.filter (isOld cutoff)).length - batchSize := by
        rw [hsnd, hcond]
      have hih := ih (deleteBatch cutoff batchSize l).2 (by rw [hrem]; omega)
      obtain ⟨hsum, hne, hbound, hpause, hrest⟩ := hih
      simp only [cleanupLoop, hcond, if_true]
      refine ⟨?_, by simp, ?_, ?_, hrest⟩
      · simp only [List.sum_cons, hsum, hrem, hcond]
        omega
      · intro d hd
        rcases List.mem_cons.mp hd with rfl | hd
        · exact le_refl _
        · exact hbound d hd
      · simp only [List.length_cons]
        omega
    · simp only [cleanupLoop, hcond, if_false]
      have hlt : (l.filter (isOld cutoff)).length < batchSize := by
        rw [hfst] at hcond
        omega
      have hd : (deleteBatch cutoff batchSize l).1 = (l.filter (isOld cutoff)).length := by
        rw [hfst]
        omega
      refine ⟨by simp [hd], by simp, ?_, by simp, by rw [hsnd, hd]; omega⟩
      intro d hmem
      rw [List.mem_singleton.mp hmem, hd]
      omega

/-- C7: with a positive batch size, the dry-run purge reports exactly the
number of events older than the cutoff and leaves the store untouched,
while the real purge deletes exactly that number — split into one or more
batches of at most `batchSize` deletions, with one inter-batch pause
between each pair of successive batches — leaving no event older than the
cutoff behind. -/
theorem cleanup_spec : ∀ (s : SysState) (retentionDays batchSize now : Nat),
    0 < batchSize →
    (cleanupAnalyticsData s retentionDays batchSize true now =
      (CleanupOutcome.dryRunReport
        ((s.clicks.filter (isOld (now - retentionDays * 86400000))).length)
        (now - retentionDays * 86400000) retentionDays, s)) ∧
    (∃ batches pauses rest,
      cleanupAnalyticsData s retentionDays batchSize false now =
        (CleanupOutcome.deleted
          ((s.clicks.filter (isOld (now - retentionDays * 86400000))).length)
          batches pauses (now - retentionDays * 86400000) retentionDays,
         { s with clicks := rest }) ∧
      batches.sum = (s.clicks.filter (isOld (now - retentionDays * 86400000))).length ∧
      batches ≠ [] ∧ (∀ d ∈ batches, d ≤ batchSize) ∧ pauses + 1 = batches.length ∧
      rest.filter (isOld (now - retentionDays * 86400000)) = []) := by
  intro s retentionDays batchSize now hbs
  constructor
  · rfl
  · have hfuel : (s.clicks.filter (isOld (now - retentionDays * 86400000))).length + 1 ≤
        s.clicks.length + 1 := by
      have := List.length_filter_le (isOld (now - retentionDays * 86400000)) s.clicks
      omega
    obtain ⟨hsum, hne, hbound, hpause, hrest⟩ :=
      cleanupLoop_spec (now - retentionDays * 86400000) batchSize hbs
        (s.clicks.length + 1) s.clicks hfuel
    refine ⟨(cleanupLoop (now - retentionDays * 86400000) batchSize
        (s.clicks.length + 1) s.clicks).1,
      (cleanupLoop (now - retentionDays * 86400000) batchSize
        (s.clicks.length + 1) s.clicks).2.1,
      (cleanupLoop (now - retentionDays * 86400000) batchSize
        (s.clicks.length + 1) s.clicks).2.2, ?_, hsum, hne, hbound, hpause, ?_⟩
    · unfold cleanupAnalyticsData
      simp only [Bool.false_eq_true, if_false]
      rw [hsum]
    · exact List.length_eq_zero.mp hrest

/-- Witness for C7: purging a two-event store (one old event, one recent)
with batch size one. -/
theorem cleanup_spec_witness :
    cleanupAnalyticsData
      { clicks := [{ urlId := 1, userId := none, ipAddress := "8.8.8.8",
                     userAgent := none, referrer := none, sessionId := none,
                     clickedAt := 0, loadTime := none, isBot := false,
                     isUnique := true, location := none, deviceType := "unknown",
                     browser := none }],
        urls := [], users := [] } 1 1 true 86400001 =
      (CleanupOutcome.dryRunReport 1 1 1,
       { clicks := [{ urlId := 1, userId := none, ipAddress := "8.8.8.8",
                      userAgent := none, referrer := none, sessionId := none,
                      clickedAt := 0, loadTime := none, isBot := false,
                      isUnique := true, location := none, deviceType := "unknown",
                      browser := none }],
         urls := [], users := [] }) :=
  (cleanup_spec
    { clicks := [{ urlId := 1, userId := none, ipAddress := "8.8.8.8",
                   userAgent := none, referrer := none, sessionId := none,
                   clickedAt := 0, loadTime := none, isBot := false,
                   isUnique := true, location := none, deviceType := "unknown",
                   browser := none }],
      urls := [], users := [] } 1 1 86400001 (by decide)).1
